import Mathlib

/-!
Verification of the agent-orchestration core of the PCControllerHuman
repository (package living_entity) against its natural-language
specification.

The Python source is shallowly embedded: pure helpers become Lean
functions; the LLM endpoint, the tool registry and the legacy code
executor are modelled as oracles (functions from a call index to the
result the collaborator returns), since the spec treats them as external
collaborators; stateful methods become explicit state-passing functions.
Python float arithmetic on wait durations only ever produces small exact
integers here (n + 1, n * 60 + 1, n * 3600 + 1, powers of two), so
durations are modelled as Nat.
-/

namespace PCController

/-! ## Character classes used by the regular expressions in
`AbstractAgent._extract_wait_time` (src/living_entity/agents/abstract.py).
The error messages involved are ASCII, so the ASCII fragments of the
Python classes suffice. -/

/-- Python regex class backslash-s restricted to ASCII. -/
def isPyRegexSpace (c : Char) : Bool :=
  c = ' ' || c = '\t' || c = '\n' || c = '\r' || c = '\x0b' || c = '\x0c'

/-- Python regex word character (ASCII fragment), used for the
word-boundary assertion after a bare unit letter. -/
def isWordChar (c : Char) : Bool :=
  c.isAlphanum || c = '_'

/-- Numeric value of a digit run, as captured by a regex group. -/
def digitsToNat (ds : List Char) : Nat :=
  ds.foldl (fun n c => n * 10 + (c.toNat - 48)) 0

/-- Substring containment, modelling the Python `in` operator on str. -/
def containsSub (hay needle : List Char) : Bool :=
  match hay with
  | [] => needle.isEmpty
  | _ :: t => needle.isPrefixOf hay || containsSub t needle

/-- Consume a literal, returning the remainder on success. -/
def dropLit (lit s : List Char) : Option (List Char) :=
  if lit.isPrefixOf s then some (s.drop lit.length) else none

/-- True when the position right after a matched unit word satisfies the
regex word-boundary assertion (end of input or a non-word character). -/
def boundaryAfter (w rest : List Char) : Bool :=
  match rest.drop w.length with
  | [] => true
  | c :: _ => !isWordChar c

/-- One alternative of a unit alternation: the literal plus whether a
word boundary is required after it (only the bare single letters carry
the boundary assertion in the source patterns). -/
def altsMatch (alts : List (List Char × Bool)) (rest : List Char) : Bool :=
  alts.any fun p => p.1.isPrefixOf rest && (!p.2 || boundaryAfter p.1 rest)

/-- Attempt, at one start position, the pattern
digits, optional spaces, unit-alternation; returns the captured number.
Greedy digit and space runs are deterministic here because no
alternative begins with a digit or a space. -/
def numUnitAt (alts : List (List Char × Bool)) (s : List Char) : Option Nat :=
  match s with
  | [] => none
  | c :: _ =>
    if c.isDigit then
      let ds := s.takeWhile Char.isDigit
      let afterWs := (s.dropWhile Char.isDigit).dropWhile isPyRegexSpace
      if altsMatch alts afterWs then some (digitsToNat ds) else none
    else none

/-- Leftmost search for the digits-then-unit pattern, modelling
`re.search`: start positions are tried left to right. -/
def numUnitSearch (alts : List (List Char × Bool)) : List Char → Option Nat
  | [] => none
  | c :: cs =>
    match numUnitAt alts (c :: cs) with
    | some n => some n
    | none => numUnitSearch alts cs

/-- Alternatives of the seconds pattern in `_extract_wait_time`. -/
def secondsUnits : List (List Char × Bool) :=
  [("second".toList, false), ("sec".toList, false), (['s'], true)]

/-- Alternatives of the minutes pattern. -/
def minutesUnits : List (List Char × Bool) :=
  [("minute".toList, false), ("min".toList, false), (['m'], true)]

/-- Alternatives of the hours pattern. -/
def hoursUnits : List (List Char × Bool) :=
  [("hour".toList, false), ("hr".toList, false), (['h'], true)]

/-- Attempt, at one start position, the combined pattern
digits, letter m, digits, letter s. -/
def combinedAt (s : List Char) : Option (Nat × Nat) :=
  match s with
  | [] => none
  | c :: _ =>
    if c.isDigit then
      let d1 := s.takeWhile Char.isDigit
      match s.dropWhile Char.isDigit with
      | 'm' :: rest2 =>
        let d2 := rest2.takeWhile Char.isDigit
        if d2.isEmpty then none
        else
          match rest2.dropWhile Char.isDigit with
          | 's' :: _ => some (digitsToNat d1, digitsToNat d2)
          | _ => none
      | _ => none
    else none

/-- Leftmost search for the combined minutes-and-seconds pattern. -/
def combinedSearch : List Char → Option (Nat × Nat)
  | [] => none
  | c :: cs =>
    match combinedAt (c :: cs) with
    | some p => some p
    | none => combinedSearch cs

/-- Attempt, at one start position, the retry-after pattern:
literal retry, one optional underscore or hyphen, literal after, one or
more colon-or-space characters, then the captured digits. -/
def retryAfterAt (s : List Char) : Option Nat :=
  match dropLit "retry".toList s with
  | none => none
  | some r1 =>
    let r2 := match r1 with
      | c :: t => if c = '_' || c = '-' then t else r1
      | [] => r1
    match dropLit "after".toList r2 with
    | none => none
    | some r3 =>
      let isSep := fun c => c = ':' || isPyRegexSpace c
      if (r3.takeWhile isSep).isEmpty then none
      else
        let r4 := r3.dropWhile isSep
        let ds := r4.takeWhile Char.isDigit
        if ds.isEmpty then none else some (digitsToNat ds)

/-- Leftmost search for the retry-after pattern. -/
def retryAfterSearch : List Char → Option Nat
  | [] => none
  | c :: cs =>
    match retryAfterAt (c :: cs) with
    | some n => some n
    | none => retryAfterSearch cs

/-- The rate-limit keyword list of `_extract_wait_time`. -/
def rateLimitKeywords : List (List Char) :=
  ["rate limit", "rate_limit", "too many requests", "quota exceeded",
   "limit exceeded", "retry after", "retry-after", "please try again"].map
    String.toList

/-- Embedding of `AbstractAgent._extract_wait_time`
(src/living_entity/agents/abstract.py, lines 203-255): keyword gate,
then the five extraction patterns in source order, then the default of
60 seconds.  Every produced value is an exact small integer, so the
Python float is modelled as Nat. -/
def extractWaitTime (msg : String) : Option Nat :=
  let cs := msg.toList
  if !(rateLimitKeywords.any fun kw => containsSub cs kw) then none
  else
    match numUnitSearch secondsUnits cs with
    | some n => some (n + 1)
    | none =>
      match numUnitSearch minutesUnits cs with
      | some n => some (n * 60 + 1)
      | none =>
        match numUnitSearch hoursUnits cs with
        | some n => some (n * 3600 + 1)
        | none =>
          match combinedSearch cs with
          | some p => some (p.1 * 60 + p.2 + 1)
          | none =>
            match retryAfterSearch cs with
            | some n => some (n + 1)
            | none => some 60

/-- ASCII lowercasing, modelling the `str.lower()` the caller applies
to the error text before matching (the messages involved are ASCII). -/
def strLower (s : String) : String :=
  ⟨s.data.map Char.toLower⟩

example : extractWaitTime "retry after 60 seconds" = some 61 := by decide
example : extractWaitTime "try again in 1m30s" = none := by decide
example : extractWaitTime "please try again in 1m30s" = some 31 := by decide
example : extractWaitTime "retry-after: 120" = some 121 := by decide
example : extractWaitTime "rate limit exceeded" = some 60 := by decide
example : extractWaitTime "limit exceeded, wait 2 minutes" = some 121 := by decide
example : extractWaitTime "connection refused" = none := by decide

/-- C4 is refuted on its second example: the message
`try again in 1m30s` contains none of the rate-limit keywords (only the
phrase `please try again` is a keyword), so the extractor classifies it
as not rate-limited and returns None rather than about 91; and even
with the keyword present the seconds pattern matches the trailing
`30s` before the combined pattern is ever tried, giving 31. -/
theorem C4_counterexample :
    extractWaitTime "try again in 1m30s" = none
    ∧ extractWaitTime "please try again in 1m30s" = some 31 := by decide

/-- C4 amended: the extractor returns 61 for `retry after 60 seconds`,
121 for `retry-after: 120`, exactly 60 for a rate-limit phrase with no
extractable number, and None for any message containing none of the
rate-limit keywords; but it returns None for `try again in 1m30s`
(no keyword matches) and 31 for `please try again in 1m30s` (the
seconds pattern captures the trailing seconds component first). -/
theorem C4_extraction_values :
    extractWaitTime "retry after 60 seconds" = some 61
    ∧ extractWaitTime "retry-after: 120" = some 121
    ∧ extractWaitTime "rate limit exceeded" = some 60
    ∧ extractWaitTime "try again in 1m30s" = none
    ∧ extractWaitTime "please try again in 1m30s" = some 31
    ∧ ∀ msg : String,
        (rateLimitKeywords.any fun kw => containsSub msg.toList kw) = false →
        extractWaitTime msg = none := by
  refine ⟨by decide, by decide, by decide, by decide, by decide, ?_⟩
  intro msg h
  simp only [extractWaitTime]
  rw [h]
  rfl

/-- Witness for the amended C4 applying its universal no-keyword part
at a concrete non-rate-limited message. -/
theorem C4_extraction_values_witness :
    extractWaitTime "connection refused" = none :=
  C4_extraction_values.2.2.2.2.2 "connection refused" (by decide)

/-! ## Embedding of `AbstractAgent._request_with_retry`
(src/living_entity/agents/abstract.py, lines 138-201).  The completion
endpoint is an oracle mapping the loop index `attempt` to the outcome of
the single call made in that iteration.  A trace records, in order, the
calls made and the sleeps performed.  The Python `continue` after a
rate-limit sleep advances the `for attempt in range(MAX_RETRIES)` loop,
which the recursion below mirrors by moving to the next attempt index. -/

/-- Outcome of one completion call: the message content (`None` allowed,
mapped to the empty string by the source) or a raised exception text. -/
inductive AttemptOutcome where
  | success (content : Option String)
  | failure (msg : String)
deriving DecidableEq, Repr

/-- One observable event of `_request_with_retry`. -/
inductive RetryEvent where
  | call (attempt : Nat)
  | rateLimitSleep (w : Nat)
  | backoffSleep (d : Nat)
deriving DecidableEq, Repr

/-- Result of `_request_with_retry`: a returned content string or a
raised exception text. -/
inductive ReqResult where
  | ok (content : String)
  | raised (msg : String)
deriving DecidableEq, Repr

/-- The constant `AbstractAgent.MAX_RETRIES`. -/
def MAX_RETRIES : Nat := 3

/-- The constant `AbstractAgent.BASE_RETRY_DELAY` (1.0 seconds). -/
def BASE_RETRY_DELAY : Nat := 1

/-- The loop body of `_request_with_retry`, indexed by the current
`attempt` and the number of remaining iterations
(`MAX_RETRIES - attempt`).  On a failure the error text is lowercased
and fed to `extractWaitTime`; a rate-limited failure sleeps the
extracted duration and continues with the next attempt index; any other
failure sleeps the exponential backoff delay unless this was the final
iteration.  After the loop the last error is raised (or a generic text
when no call was made). -/
def retryGo (outcomes : Nat → AttemptOutcome) :
    Nat → Nat → Option String → List RetryEvent × ReqResult
  | _, 0, lastError =>
    ([], .raised (lastError.getD "Unknown API error"))
  | attempt, r + 1, _ =>
    match outcomes attempt with
    | .success content => ([.call attempt], .ok (content.getD ""))
    | .failure msg =>
      match extractWaitTime (strLower msg) with
      | some w =>
        let rest := retryGo outcomes (attempt + 1) r (some msg)
        (.call attempt :: .rateLimitSleep w :: rest.1, rest.2)
      | none =>
        let rest := retryGo outcomes (attempt + 1) r (some msg)
        if r > 0 then
          (.call attempt :: .backoffSleep (BASE_RETRY_DELAY * 2 ^ attempt) :: rest.1,
           rest.2)
        else
          (.call attempt :: rest.1, rest.2)

/-- Embedding of `_request_with_retry`: run the loop from attempt 0 with
`MAX_RETRIES` iterations and no last error. -/
def requestWithRetry (outcomes : Nat → AttemptOutcome) :
    List RetryEvent × ReqResult :=
  retryGo outcomes 0 MAX_RETRIES none

/-- Number of completion calls recorded in a trace. -/
def callCount : List RetryEvent → Nat
  | [] => 0
  | .call _ :: t => callCount t + 1
  | .rateLimitSleep _ :: t => callCount t
  | .backoffSleep _ :: t => callCount t

/-- The loop makes at most as many calls as it has remaining
iterations, whatever the oracle answers. -/
theorem retryGo_callCount_le (outcomes : Nat → AttemptOutcome) :
    ∀ r attempt lastError,
      callCount (retryGo outcomes attempt r lastError).1 ≤ r := by
  intro r
  induction r with
  | zero =>
    intro attempt lastError
    simp [retryGo, callCount]
  | succ r ih =>
    intro attempt lastError
    cases h : outcomes attempt with
    | success content => simp [retryGo, h, callCount]
    | failure msg =>
      cases hw : extractWaitTime (strLower msg) with
      | some w =>
        have := ih (attempt + 1) (some msg)
        simp only [retryGo, h, hw, callCount]
        omega
      | none =>
        have := ih (attempt + 1) (some msg)
        by_cases hr : r > 0
        · simp only [retryGo, h, hw, hr, if_pos, callCount]
          omega
        · simp only [retryGo, h, hw, hr, if_neg, callCount]
          omega

/-- Oracle for the example run refuting the claim: the first three
attempt slots fail with a rate-limited error, every later slot would
succeed. -/
def rlOutcomes : Nat → AttemptOutcome := fun i =>
  if i < 3 then .failure "rate limit exceeded. retry after 5 seconds"
  else .success (some "ok")

example :
    requestWithRetry rlOutcomes =
      ([.call 0, .rateLimitSleep 6, .call 1, .rateLimitSleep 6,
        .call 2, .rateLimitSleep 6],
       .raised "rate limit exceeded. retry after 5 seconds") := by decide

/-- C3: for a request all of whose attempts fail with non-rate-limited
errors, `_request_with_retry` makes exactly `MAX_RETRIES` (three)
completion attempts, sleeping `BASE_RETRY_DELAY * 2 ^ attempt` seconds
between consecutive attempts (attempt 0 and 1; no sleep after the final
one), and then raises the last error received. -/
theorem C3_retry_budget (outcomes : Nat → AttemptOutcome) (m : Nat → String)
    (hfail : ∀ i, i < MAX_RETRIES → outcomes i = .failure (m i))
    (hnorl : ∀ i, i < MAX_RETRIES → extractWaitTime (strLower (m i)) = none) :
    requestWithRetry outcomes =
      ([.call 0, .backoffSleep (BASE_RETRY_DELAY * 2 ^ 0),
        .call 1, .backoffSleep (BASE_RETRY_DELAY * 2 ^ 1),
        .call 2],
       .raised (m 2)) := by
  have h0 := hfail 0 (by decide)
  have h1 := hfail 1 (by decide)
  have h2 := hfail 2 (by decide)
  have w0 := hnorl 0 (by decide)
  have w1 := hnorl 1 (by decide)
  have w2 := hnorl 2 (by decide)
  show retryGo outcomes 0 (2 + 1) none = _
  rw [retryGo, h0]
  simp only [w0]
  show (_ :: _ :: (retryGo outcomes (0 + 1) (1 + 1) (some (m 0))).1, _) = _
  rw [retryGo, h1]
  simp only [w1]
  show (_ :: _ :: _ :: _ ::
      (retryGo outcomes (0 + 1 + 1) (0 + 1) (some (m 1))).1, _) = _
  rw [retryGo, h2]
  simp only [w2]
  rfl

/-- Witness for C3 at a concrete permanently failing oracle. -/
theorem C3_retry_budget_witness :
    requestWithRetry (fun _ => .failure "boom") =
      ([.call 0, .backoffSleep 1, .call 1, .backoffSleep 2, .call 2],
       .raised "boom") := by
  have hb : extractWaitTime (strLower "boom") = none := by decide
  exact C3_retry_budget (fun _ => .failure "boom") (fun _ => "boom")
    (fun _ _ => rfl) (fun _ _ => hb)

/-- C2 is refuted: three rate-limited failures exhaust the whole attempt
budget.  Under `rlOutcomes` the first three attempt slots fail with a
rate-limited error and every later slot would succeed, yet the code
performs only three calls (each `continue` advances the `for` loop
index) and then raises, so the rate-limit waits did consume the
exponential-backoff attempt budget and no non-rate-limited attempt was
ever left. -/
theorem C2_counterexample :
    requestWithRetry rlOutcomes =
      ([.call 0, .rateLimitSleep 6, .call 1, .rateLimitSleep 6,
        .call 2, .rateLimitSleep 6],
       .raised "rate limit exceeded. retry after 5 seconds")
    ∧ rlOutcomes 3 = .success (some "ok")
    ∧ callCount (requestWithRetry rlOutcomes).1 = 3 := by decide

/-- C2 amended: when an attempt fails with a rate-limit error the layer
waits the extracted duration and retries, but the retry occupies the
next attempt slot of the same `MAX_RETRIES` budget: at most
`MAX_RETRIES` completion calls are made in any run, however many of the
failures were rate-limited. -/
theorem C2_rate_limit_consumes_budget :
    (∀ outcomes : Nat → AttemptOutcome,
        callCount (requestWithRetry outcomes).1 ≤ MAX_RETRIES)
    ∧ (∀ (outcomes : Nat → AttemptOutcome) (msg : String) (w : Nat),
        outcomes 0 = .failure msg →
        extractWaitTime (strLower msg) = some w →
        requestWithRetry outcomes =
          (.call 0 :: .rateLimitSleep w ::
            (retryGo outcomes 1 (MAX_RETRIES - 1) (some msg)).1,
           (retryGo outcomes 1 (MAX_RETRIES - 1) (some msg)).2)) := by
  constructor
  · intro outcomes
    exact retryGo_callCount_le outcomes MAX_RETRIES 0 none
  · intro outcomes msg w h1 h2
    show retryGo outcomes 0 (2 + 1) none = _
    rw [retryGo, h1]
    simp only [h2]
    rfl

/-- Witness for the amended C2 at the concrete rate-limited oracle. -/
theorem C2_rate_limit_consumes_budget_witness :
    callCount (requestWithRetry rlOutcomes).1 ≤ MAX_RETRIES
    ∧ requestWithRetry rlOutcomes =
        (.call 0 :: .rateLimitSleep 6 ::
          (retryGo rlOutcomes 1 (MAX_RETRIES - 1)
            (some "rate limit exceeded. retry after 5 seconds")).1,
         (retryGo rlOutcomes 1 (MAX_RETRIES - 1)
            (some "rate limit exceeded. retry after 5 seconds")).2) :=
  ⟨C2_rate_limit_consumes_budget.1 rlOutcomes,
   C2_rate_limit_consumes_budget.2 rlOutcomes
     "rate limit exceeded. retry after 5 seconds" 6 (by decide) (by decide)⟩

/-! ## JSON values and a model of `json.loads`

`AbstractAgent.parse_json_response` and `_repair_json`
(src/living_entity/agents/abstract.py, lines 257-342) work on top of
the standard-library JSON parser, so the parser is embedded as well.
JSON numbers are modelled as exact rationals (Python parses decimals as
floats; no claim compares float roundings).  The nonstandard NaN and
Infinity literals that Python additionally accepts, and surrogate-pair
unicode escapes, are not used by any claim input and are omitted. -/

/-- A parsed JSON value.  Object members keep their source order and
possible duplicate keys; lookups take the last binding, matching the
way repeated keys overwrite earlier ones in a Python dict. -/
inductive Json where
  | null
  | bool (b : Bool)
  | num (q : Rat)
  | str (s : String)
  | arr (elts : List Json)
  | obj (members : List (String × Json))
deriving Repr

/-- JSON interelement whitespace, as in the Python json module. -/
def jsonWs (c : Char) : Bool :=
  c = ' ' || c = '\t' || c = '\n' || c = '\r'

/-- Skip JSON whitespace. -/
def skipWs (s : List Char) : List Char :=
  s.dropWhile jsonWs

/-- Value of a hexadecimal digit. -/
def hexVal (c : Char) : Option Nat :=
  if c.isDigit then some (c.toNat - 48)
  else if 'a' ≤ c && c ≤ 'f' then some (c.toNat - 87)
  else if 'A' ≤ c && c ≤ 'F' then some (c.toNat - 55)
  else none

/-- Decode a single-character JSON string escape. -/
def simpleEscape (e : Char) : Option Char :=
  if e = '"' then some '"'
  else if e = '\\' then some '\\'
  else if e = '/' then some '/'
  else if e = 'b' then some '\x08'
  else if e = 'f' then some '\x0c'
  else if e = 'n' then some '\n'
  else if e = 'r' then some '\r'
  else if e = 't' then some '\t'
  else none

/-- Parse the body of a JSON string literal after the opening quote, in
strict mode: control characters are rejected, escapes are decoded.
Returns the decoded characters and the remainder after the closing
quote. -/
def parseStringBody : List Char → Option (List Char × List Char)
  | [] => none
  | '"' :: rest => some ([], rest)
  | '\\' :: 'u' :: h1 :: h2 :: h3 :: h4 :: rest =>
    (match hexVal h1, hexVal h2, hexVal h3, hexVal h4 with
     | some a, some b, some c, some d =>
       match parseStringBody rest with
       | some (cs, rest2) =>
         some (Char.ofNat (((a * 16 + b) * 16 + c) * 16 + d) :: cs, rest2)
       | none => none
     | _, _, _, _ => none)
  | '\\' :: e :: rest =>
    (match simpleEscape e with
     | some c =>
       match parseStringBody rest with
       | some (cs, rest2) => some (c :: cs, rest2)
       | none => none
     | none => none)
  | c :: rest =>
    if c.toNat < 32 then none
    else
      match parseStringBody rest with
      | some (cs, rest2) => some (c :: cs, rest2)
      | none => none

/-- Nonempty digit run. -/
def parseDigits (s : List Char) : Option (List Char × List Char) :=
  let ds := s.takeWhile Char.isDigit
  if ds.isEmpty then none else some (ds, s.dropWhile Char.isDigit)

/-- Parse a JSON number per the grammar used by the Python json module:
optional minus, `0` or a nonzero-led digit run, optional fraction,
optional exponent.  The exact rational value is produced. -/
def parseNumber (s : List Char) : Option (Rat × List Char) :=
  let (neg, s1) : Bool × List Char :=
    match s with
    | '-' :: t => (true, t)
    | _ => (false, s)
  let intPart : Option (Nat × List Char) :=
    match s1 with
    | '0' :: t => some (0, t)
    | c :: _ =>
      if c.isDigit then
        match parseDigits s1 with
        | some (ds, t) => some (digitsToNat ds, t)
        | none => none
      else none
    | [] => none
  match intPart with
  | none => none
  | some (ip, s2) =>
    let fracPart : Option (Option Rat × List Char) :=
      match s2 with
      | '.' :: t =>
        match parseDigits t with
        | some (ds, t2) =>
          some (some ((digitsToNat ds : Rat) / ((10 : Rat) ^ ds.length)), t2)
        | none => none
      | _ => some (none, s2)
    match fracPart with
    | none => none
    | some (fp, s3) =>
      let expPart : Option (Option Int × List Char) :=
        match s3 with
        | 'e' :: t | 'E' :: t =>
          let (eneg, t1) : Bool × List Char :=
            match t with
            | '-' :: t2 => (true, t2)
            | '+' :: t2 => (false, t2)
            | _ => (false, t)
          match parseDigits t1 with
          | some (ds, t2) =>
            some (some (if eneg then -(digitsToNat ds : Int)
                        else (digitsToNat ds : Int)), t2)
          | none => none
        | _ => some (none, s3)
      match expPart with
      | none => none
      | some (ex, s4) =>
        let base : Rat :=
          match fp with
          | none => (ip : Rat)
          | some f => (ip : Rat) + f
        let signed : Rat := if neg then -base else base
        let scaled : Rat :=
          match ex with
          | none => signed
          | some e =>
            if e ≥ 0 then signed * (10 : Rat) ^ e.toNat
            else signed / (10 : Rat) ^ (-e).toNat
        some (scaled, s4)

mutual

/-- Parse one JSON value, skipping leading whitespace.  The fuel bounds
the recursion; `loads` supplies more fuel than any input can use. -/
def parseVal : Nat → List Char → Option (Json × List Char)
  | 0, _ => none
  | fuel + 1, s =>
    match skipWs s with
    | '"' :: rest =>
      match parseStringBody rest with
      | some (cs, rest2) => some (.str ⟨cs⟩, rest2)
      | none => none
    | '{' :: rest =>
      match skipWs rest with
      | '}' :: rest2 => some (.obj [], rest2)
      | _ => match parseObjItems fuel (skipWs rest) with
        | some (ms, rest2) => some (.obj ms, rest2)
        | none => none
    | '[' :: rest =>
      match skipWs rest with
      | ']' :: rest2 => some (.arr [], rest2)
      | _ => match parseArrItems fuel (skipWs rest) with
        | some (vs, rest2) => some (.arr vs, rest2)
        | none => none
    | 't' :: rest =>
      match dropLit "rue".toList rest with
      | some rest2 => some (.bool true, rest2)
      | none => none
    | 'f' :: rest =>
      match dropLit "alse".toList rest with
      | some rest2 => some (.bool false, rest2)
      | none => none
    | 'n' :: rest =>
      match dropLit "ull".toList rest with
      | some rest2 => some (.null, rest2)
      | none => none
    | other =>
      match parseNumber other with
      | some (q, rest) => some (.num q, rest)
      | none => none

/-- Parse one or more comma-separated array items up to the closing
bracket (the empty array is handled by the caller). -/
def parseArrItems : Nat → List Char → Option (List Json × List Char)
  | 0, _ => none
  | fuel + 1, s =>
    match parseVal fuel s with
    | none => none
    | some (v, rest) =>
      match skipWs rest with
      | ']' :: rest2 => some ([v], rest2)
      | ',' :: rest2 =>
        match parseArrItems fuel rest2 with
        | some (vs, rest3) => some (v :: vs, rest3)
        | none => none
      | _ => none

/-- Parse one or more comma-separated object members up to the closing
brace (the empty object is handled by the caller).  Keys must be string
literals. -/
def parseObjItems : Nat → List Char → Option (List (String × Json) × List Char)
  | 0, _ => none
  | fuel + 1, s =>
    match skipWs s with
    | '"' :: rest =>
      match parseStringBody rest with
      | none => none
      | some (kcs, rest2) =>
        match skipWs rest2 with
        | ':' :: rest3 =>
          match parseVal fuel rest3 with
          | none => none
          | some (v, rest4) =>
            match skipWs rest4 with
            | '}' :: rest5 => some ([(⟨kcs⟩, v)], rest5)
            | ',' :: rest5 =>
              match parseObjItems fuel rest5 with
              | some (ms, rest6) => some ((⟨kcs⟩, v) :: ms, rest6)
              | none => none
            | _ => none
        | _ => none
    | _ => none

end

/-- Model of `json.loads` on the character list: parse one value, then
require only whitespace to remain (the Extra data check). -/
def loadsL (cs : List Char) : Option Json :=
  match parseVal (cs.length + 1) cs with
  | some (j, rest) => if (skipWs rest).isEmpty then some j else none
  | none => none

/-- Model of `json.loads` on strings. -/
def loads (s : String) : Option Json :=
  loadsL s.toList

example : loads "\x7b\"key\": \"value\", \"number\": 42\x7d" =
    some (.obj [("key", .str "value"), ("number", .num 42)]) := by rfl
example : loads "[1, 2, true, null, \"x\"]" =
    some (.arr [.num 1, .num 2, .bool true, .null, .str "x"]) := by rfl
example : loads "This is not JSON" = none := by rfl
example : loads "\x7b\"a\": 1,\x7d" = none := by rfl
example : loads "" = none := by rfl
example : loads "5" = some (.num 5) := by rfl

/-! ## Embedding of `AbstractAgent.parse_json_response` and
`AbstractAgent._repair_json` (src/living_entity/agents/abstract.py,
lines 257-342), including the Python string primitives they use. -/

/-- Whitespace stripped by `str.strip()` (ASCII fragment). -/
def isPyStripWs (c : Char) : Bool :=
  c = ' ' || c = '\t' || c = '\n' || c = '\r' || c = '\x0b' || c = '\x0c'

/-- Remove trailing strip-whitespace. -/
def stripRightL (cs : List Char) : List Char :=
  (cs.reverse.dropWhile isPyStripWs).reverse

/-- Model of `str.strip()`. -/
def pyStripL (cs : List Char) : List Char :=
  (stripRightL cs).dropWhile isPyStripWs

/-- Model of `str.startswith(pre)`. -/
def pyStartsWithL (cs pre : List Char) : Bool :=
  pre.isPrefixOf cs

/-- Model of `str.endswith(suf)`. -/
def pyEndsWithL (cs suf : List Char) : Bool :=
  suf.isSuffixOf cs

/-- Model of `str.find(c)`: index of the first occurrence, -1 if none. -/
def pyFindL (c : Char) : List Char → Int
  | [] => -1
  | x :: t =>
    if x = c then 0
    else
      let r := pyFindL c t
      if r < 0 then -1 else r + 1

/-- Model of `str.rfind(c)`: index of the last occurrence, -1 if none. -/
def pyRfindL (c : Char) (cs : List Char) : Int :=
  match pyFindL c cs.reverse with
  | -1 => -1
  | i => (cs.length : Int) - 1 - i

/-- Model of `s[a:b]` for 0 ≤ a (the only shape the source uses). -/
def pySliceL (cs : List Char) (a b : Int) : List Char :=
  ((cs.drop a.toNat).take (b - a).toNat)

/-- Model of `s[:-n]`. -/
def pyDropRightL (cs : List Char) (n : Nat) : List Char :=
  cs.take (cs.length - n)

/-- Number of occurrences of a character, modelling `str.count`. -/
def countChar (c : Char) (cs : List Char) : Nat :=
  (cs.filter (fun x => x = c)).length

/-- The quote-parity loop of `_repair_json`: walk the text tracking a
backslash-escape flag and toggle on each unescaped double quote; true
when the text ends inside a string literal. -/
def inStringScan : List Char → Bool → Bool → Bool
  | [], _, inS => inS
  | _ :: t, true, inS => inStringScan t false inS
  | c :: t, false, inS =>
    if c = '\\' then inStringScan t true inS
    else if c = '"' then inStringScan t false (!inS)
    else inStringScan t false inS

/-- Embedding of `AbstractAgent._repair_json`: count braces and
brackets over the whole text (string contents included), close an
unterminated string, then append the missing closers; return the
repaired text only when it differs from the input (Python returns None
otherwise, and negative multiplicities produce the empty string just
like Nat subtraction). -/
def repairJsonL (text : List Char) : Option (List Char) :=
  let openBraces := countChar '{' text
  let closeBraces := countChar '}' text
  let openBrackets := countChar '[' text
  let closeBrackets := countChar ']' text
  let inS := inStringScan text false false
  let repaired :=
    text ++ (if inS then ['"'] else [])
      ++ List.replicate (openBrackets - closeBrackets) ']'
      ++ List.replicate (openBraces - closeBraces) '}'
  if repaired ≠ text then some repaired else none

/-- String-level `_repair_json`. -/
def repairJson (text : String) : Option String :=
  (repairJsonL text.toList).map fun cs => ⟨cs⟩

/-- First step of fence stripping in `parse_json_response`: drop the
first line (through the first newline) when a newline exists at a
positive index. -/
def fenceDropFirstLine (text : List Char) : List Char :=
  if pyFindL '\n' text > 0 then text.drop (pyFindL '\n' text + 1).toNat
  else text

/-- Second step of fence stripping: drop a trailing triple backtick. -/
def fenceDropTail (t1 : List Char) : List Char :=
  if pyEndsWithL t1 ("```".toList) then pyDropRightL t1 3 else t1

/-- The code-fence stripping step of `parse_json_response`: drop the
first line, drop a trailing triple backtick, then strip. -/
def fenceStripL (text : List Char) : List Char :=
  pyStripL (fenceDropTail (fenceDropFirstLine text))

/-- The part of `parse_json_response` after fence handling: strict
parse; on failure extract from the first opening brace to the last
closing brace and re-parse; on failure repair and re-parse once; else
None. -/
def jsonPhase (text : List Char) : Option Json :=
  match loadsL text with
  | some j => some j
  | none =>
    let start := pyFindL '{' text
    let e := pyRfindL '}' text + 1
    if start ≥ 0 ∧ e > start then
      let jsonText := pySliceL text start e
      match loadsL jsonText with
      | some j => some j
      | none =>
        match repairJsonL jsonText with
        | some rep => loadsL rep
        | none => none
    else none

/-- Embedding of `AbstractAgent.parse_json_response` on character
lists: strip, remove a leading fenced code block if present, then the
parse-extract-repair pipeline. -/
def parseJsonResponseL (response : List Char) : Option Json :=
  if pyStartsWithL (pyStripL response) ("```".toList) then
    jsonPhase (fenceStripL (pyStripL response))
  else jsonPhase (pyStripL response)

/-- String-level `parse_json_response`. -/
def parseJsonResponse (response : String) : Option Json :=
  parseJsonResponseL response.toList

/-- Wrap a response in a fenced code block: a leading fence line and a
trailing fence, the shape named by the claim. -/
def wrapFence (s : String) : String :=
  "```\n" ++ s ++ "\n```"

example : parseJsonResponse "\x7b\"key\": \"value\", \"number\": 42\x7d" =
    some (.obj [("key", .str "value"), ("number", .num 42)]) := by rfl
example : parseJsonResponse "```json\n\x7b\"key\": \"value\"\x7d\n```" =
    some (.obj [("key", .str "value")]) := by rfl
example : parseJsonResponse "This is not JSON" = none := by rfl
example : parseJsonResponse (wrapFence "\x7b\"a\": 1\x7d") =
    some (.obj [("a", .num 1)]) := by rfl
example : parseJsonResponse "```\n5\n```" = some (.num 5) := by rfl
example : parseJsonResponse (wrapFence "```\n5\n```") = none := by rfl
example : parseJsonResponse "\x7b\"a\": \"hel" = none := by rfl
example : repairJson "\x7b\"a\": \"hel" = some "\x7b\"a\": \"hel\"\x7d" := by rfl
example : loads "\x7b\"a\": \"hel\"\x7d" = some (.obj [("a", .str "hel")]) := by rfl
example : parseJsonResponse "\x7b\"a\": \x7b\"b\": 1\x7d" =
    some (.obj [("a", .obj [("b", .num 1)])]) := by rfl
example : parseJsonResponse "\x7b\"a\": \"\x7d" = none := by rfl

/-! ## Lemmas about the fence-stripping pipeline on a wrapped input. -/

theorem strip_wrap (cs : List Char) :
    pyStripL ("```\n".toList ++ cs ++ "\n```".toList) =
      "```\n".toList ++ cs ++ "\n```".toList := by
  have hbt : isPyStripWs '`' = false := by decide
  unfold pyStripL stripRightL
  simp [List.reverse_append, List.dropWhile, hbt]

theorem starts_wrap (cs : List Char) :
    pyStartsWithL ("```\n".toList ++ cs ++ "\n```".toList) ("```".toList)
      = true := by
  simp [pyStartsWithL, List.isPrefixOf]

theorem find_nl_wrap (cs : List Char) :
    pyFindL '\n' ("```\n".toList ++ cs ++ "\n```".toList) = 3 := by
  show pyFindL '\n' ('`' :: '`' :: '`' :: '\n' :: (cs ++ "\n```".toList)) = 3
  simp [pyFindL]

theorem ends_wrap (cs : List Char) :
    pyEndsWithL (cs ++ "\n```".toList) ("```".toList) = true := by
  simp [pyEndsWithL, List.isSuffixOf, List.reverse_append, List.isPrefixOf]

theorem strip_newline (cs : List Char) :
    pyStripL (cs ++ ['\n']) = pyStripL cs := by
  have h : isPyStripWs '\n' = true := by decide
  unfold pyStripL stripRightL
  simp [List.reverse_append, List.dropWhile, h]

theorem dropFirstLine_wrap (cs : List Char) :
    fenceDropFirstLine ("```\n".toList ++ cs ++ "\n```".toList)
      = cs ++ "\n```".toList := by
  unfold fenceDropFirstLine
  rw [find_nl_wrap]
  have h1 : ((3 : Int) > 0) = True := by simp
  simp only [h1, if_true]
  show ("```\n".toList ++ (cs ++ "\n```".toList)).drop (("```\n".toList).length) = _
  rw [List.drop_left]

theorem dropTail_wrap (cs : List Char) :
    fenceDropTail (cs ++ "\n```".toList) = cs ++ ['\n'] := by
  unfold fenceDropTail
  rw [ends_wrap, if_pos rfl]
  unfold pyDropRightL
  have hl : (cs ++ "\n```".toList).length - 3 = cs.length + 1 := by
    simp [List.length_append]
  rw [hl]
  have ht : (cs ++ "\n```".toList).take (cs.length + 1)
      = cs ++ ("\n```".toList).take 1 := List.take_append 1
  rw [ht]
  rfl

theorem fence_wrap (cs : List Char) :
    fenceStripL ("```\n".toList ++ cs ++ "\n```".toList) = pyStripL cs := by
  unfold fenceStripL
  rw [dropFirstLine_wrap, dropTail_wrap, strip_newline]

theorem parseWrap (cs : List Char)
    (h : pyStartsWithL (pyStripL cs) ("```".toList) = false) :
    parseJsonResponseL ("```\n".toList ++ cs ++ "\n```".toList)
      = parseJsonResponseL cs := by
  unfold parseJsonResponseL
  rw [strip_wrap, starts_wrap, if_pos rfl, fence_wrap, h, if_neg (by simp)]

/-- C8 is refuted: the fence-wrap round trip is not the identity when
the response itself begins with a code fence.  For the response that is
itself a fenced numeral, parsing the unwrapped text strips the inner
fence and yields the number 5, while parsing the wrapped text strips
only the outer fence, leaves a backtick-led text whose strict parse
fails and which contains no brace for the extraction step, and returns
None. -/
theorem C8_counterexample :
    parseJsonResponse (wrapFence "```\n5\n```") = none
    ∧ parseJsonResponse "```\n5\n```" = some (.num 5) :=
  ⟨rfl, rfl⟩

/-- C8 amended: for every response string whose stripped form does not
itself begin with a code fence, `parse_json_response` returns on the
fence-wrapped response exactly what it returns on the unwrapped text;
and on every input it totally returns either a parsed object or None
(the embedding is a total function, mirroring the exception handling
of the source). -/
theorem C8_fence_roundtrip (s : String)
    (h : pyStartsWithL (pyStripL s.toList) ("```".toList) = false) :
    parseJsonResponse (wrapFence s) = parseJsonResponse s
    ∧ (parseJsonResponse s = none ∨
        ∃ j, parseJsonResponse s = some j) := by
  constructor
  · show parseJsonResponseL (wrapFence s).toList = parseJsonResponseL s.toList
    have hw : (wrapFence s).toList
        = "```\n".toList ++ s.toList ++ "\n```".toList := rfl
    rw [hw]
    exact parseWrap s.toList h
  · cases hj : parseJsonResponse s with
    | none => exact Or.inl rfl
    | some j => exact Or.inr ⟨j, rfl⟩

/-- Witness for the amended C8 at a concrete JSON object response. -/
theorem C8_fence_roundtrip_witness :
    parseJsonResponse (wrapFence "\x7b\"a\": 1\x7d")
        = parseJsonResponse "\x7b\"a\": 1\x7d"
    ∧ (parseJsonResponse "\x7b\"a\": 1\x7d" = none ∨
        ∃ j, parseJsonResponse "\x7b\"a\": 1\x7d" = some j) :=
  C8_fence_roundtrip "\x7b\"a\": 1\x7d" rfl

/-- C9 is refuted: an unterminated-string truncation of an object text
with no closing brace anywhere is exactly the recoverable shape the
claim names, and `_repair_json` alone would indeed repair it into valid
JSON, but `parse_json_response` only reaches the repair step on the
substring between the first opening brace and the last closing brace,
which requires a closing brace to exist; on this input it therefore
returns None. -/
theorem C9_counterexample :
    parseJsonResponse "\x7b\"a\": \"hel" = none
    ∧ repairJson "\x7b\"a\": \"hel" = some "\x7b\"a\": \"hel\"\x7d"
    ∧ loads "\x7b\"a\": \"hel\"\x7d" = some (.obj [("a", .str "hel")]) :=
  ⟨rfl, rfl, rfl⟩

/-- C9 amended: `_repair_json` applied directly does repair
unterminated-string and missing-closer truncations into parseable JSON,
and `parse_json_response` returns a non-None object on truncated
objects that still contain a closing brace (for example a missing outer
brace after a complete inner object, or a missing bracket and brace
after an inner object closes); but truncations containing no closing
brace never reach the repair step and yield None. -/
theorem C9_repair_reachability :
    loads ((repairJson "\x7b\"a\": \"hel").getD "") =
      some (.obj [("a", .str "hel")])
    ∧ parseJsonResponse "\x7b\"a\": \x7b\"b\": 1\x7d" =
        some (.obj [("a", .obj [("b", .num 1)])])
    ∧ parseJsonResponse "\x7b\"a\": [\x7b\"b\": 1\x7d" =
        some (.obj [("a", .arr [.obj [("b", .num 1)]])])
    ∧ parseJsonResponse "\x7b\"a\": \"hel" = none :=
  ⟨rfl, rfl, rfl, rfl⟩

/-! ## Structural model for the Orchestrator construction (claim C1)

`LivingCore.__init__` (src/living_entity/core.py) can only run after
the module `living_entity.core` loads, and that module imports
`SpiritAgent` and `Signal` from `living_entity.agents.spirit`
(core.py line 14).  The construction itself calls
`self.brain.set_command_queue(...)` inside `_init_components`
(core.py line 232).  Both are resolved against the source tree and the
class bodies, which are embedded here as name lists read off the
repository files. -/

/-- The python modules present in the package directory
src/living_entity/agents/. -/
def agentsPackageModules : List String :=
  ["__init__", "abstract", "brain"]

/-- The submodules of living_entity.agents that core.py imports from
(lines 13-15). -/
def coreAgentImports : List String :=
  ["abstract", "spirit", "brain"]

/-- The method names defined in the body of class BrainAgent
(src/living_entity/agents/brain.py) together with those it inherits
from AbstractAgent (src/living_entity/agents/abstract.py): the names an
attribute lookup on a BrainAgent instance can resolve. -/
def brainAgentMethods : List String :=
  ["__init__", "set_thought_stream", "set_context_reducer",
   "set_output_callback", "on_action", "process", "_process_task",
   "_execute_action", "_handle_focus_task", "_handle_continuation",
   "_handle_failure", "_record_action", "run_event_loop", "start",
   "stop", "is_running", "get_action_history", "get_current_thought",
   "clear_history", "run_loop",
   "set_system_prompt", "add_to_history", "get_history", "set_history",
   "think", "_request_with_retry", "_extract_wait_time",
   "parse_json_response", "_repair_json"]

/-- The ways the orchestrator construction can fail structurally. -/
inductive InitFailure where
  | importError (module : String)
  | attributeError (attr : String)
deriving DecidableEq, Repr

/-- Loading the module living_entity.core: resolve its imports from
living_entity.agents against the package contents; the first missing
submodule raises ImportError. -/
def importCoreModule : Except InitFailure Unit :=
  match coreAgentImports.find? (fun m => !(agentsPackageModules.contains m)) with
  | some m => .error (.importError m)
  | none => .ok ()

/-- The `self.brain.set_command_queue(...)` call of
`LivingCore._init_components` (core.py line 232), resolved against the
BrainAgent method table: a missing attribute raises AttributeError. -/
def initComponents : Except InitFailure Unit :=
  if brainAgentMethods.contains "set_command_queue" then .ok ()
  else .error (.attributeError "set_command_queue")

/-- Constructing a LivingCore: the module must load before the
constructor body (which runs `_init_components`) can execute.  The
constructor arguments play no role in either failure. -/
def constructLivingCore (_apiKey _baseUrl _model : String) :
    Except InitFailure Unit := do
  importCoreModule
  initComponents

/-- C1: the Orchestrator can never be successfully constructed.  For
every choice of constructor arguments the construction fails with the
ImportError for the missing module living_entity.agents.spirit, and,
independently, even the `_init_components` body alone would raise
AttributeError because BrainAgent defines `set_thought_stream` but no
`set_command_queue`. -/
theorem C1_construction_always_fails :
    (∀ apiKey baseUrl model : String,
        constructLivingCore apiKey baseUrl model = .error (.importError "spirit"))
    ∧ agentsPackageModules.contains "spirit" = false
    ∧ initComponents = .error (.attributeError "set_command_queue")
    ∧ brainAgentMethods.contains "set_command_queue" = false
    ∧ brainAgentMethods.contains "set_thought_stream" = true := by
  exact ⟨fun _ _ _ => rfl, by decide, rfl, by decide, by decide⟩

/-! ## Embedding of the Execution Agent task lifecycle
(`BrainAgent` in src/living_entity/agents/brain.py)

The LLM endpoint, the tool registry and the legacy code executor are
oracles indexed by call order.  The agent state carries the call
counters, the logs of LLM requests, recorded actions, emitted user
outputs, the bounded action history, the active-task slot
(`_current_task`, by its guidance text) and `_task_context`.  The
modelled agent is one built the way the Orchestrator builds it, with a
tool registry present; `memory` and the context reducer are the
constructor defaults (None), so the memory digest is empty and no
history reduction occurs — neither is observed by any claim.  Prompt
templates are represented by constructors carrying the values
interpolated into them (`BRAIN_CODE_PROMPT` is always formatted with
priority "medium").  The `SpiritThought` type the brain imports is
absent from the source tree; only its `guidance` text field is used
here, so tasks are modelled by that string.  Python `str()` renderings
of parsed JSON values are modelled by `renderJson`/`pyReprJson`; the
container and numeric renderings are abridged stand-ins and no claim
inspects them. -/

/-- Truthiness of a parsed JSON value under Python bool(). -/
def jsonTruthy : Json → Bool
  | .null => false
  | .bool b => b
  | .num q => !(q = 0)
  | .str s => !(s = "")
  | .arr l => !l.isEmpty
  | .obj m => !m.isEmpty

/-- Lookup of a key in parsed object members: the last binding wins,
as repeated keys overwrite in a Python dict. -/
def objGet : List (String × Json) → String → Option Json
  | [], _ => none
  | kv :: t, key =>
    match objGet t key with
    | some r => some r
    | none => if kv.1 = key then some kv.2 else none

/-- Model of `dict.get(key, default)`. -/
def objGetD (members : List (String × Json)) (key : String) (dflt : Json) : Json :=
  (objGet members key).getD dflt

/-- Rendering of a rational in decimal-ish form (abridged; no claim
inspects rendered numbers). -/
def ratRender (q : Rat) : String :=
  if q.den = 1 then toString q.num else toString q.num ++ "/" ++ toString q.den

/-- Model of Python `str()` on a parsed JSON value, as interpolated
into f-strings and passed to callbacks (container renderings
abridged). -/
def renderJson : Json → String
  | .null => "None"
  | .bool true => "True"
  | .bool false => "False"
  | .num q => ratRender q
  | .str s => s
  | .arr _ => "[...]"
  | .obj _ => "\x7b...\x7d"

/-- Model of Python `repr()` on a parsed JSON value, as used for
elements inside `str()` of a list. -/
def pyReprJson : Json → String
  | .str s => "'" ++ s ++ "'"
  | j => renderJson j

/-- Model of `str(list)` for the list of tool outputs. -/
def pyStrList (xs : List Json) : String :=
  "[" ++ String.intercalate ", " (xs.map pyReprJson) ++ "]"

/-- Replace every occurrence of a nonempty pattern, left to right and
non-overlapping, modelling `str.replace`. -/
def replaceSubGo (pat rep : List Char) : Nat → List Char → List Char
  | 0, s => s
  | fuel + 1, s =>
    match s with
    | [] => []
    | c :: t =>
      if pat ≠ [] ∧ pat.isPrefixOf s then
        rep ++ replaceSubGo pat rep fuel (s.drop pat.length)
      else c :: replaceSubGo pat rep fuel t

/-- String-level `str.replace`. -/
def replaceSub (s pat rep : String) : String :=
  ⟨replaceSubGo pat.toList rep.toList s.toList.length s.toList⟩

/-- Result of one registry tool execution
(`ToolResult` in src/living_entity/execution/tools.py; `output` holds
the arbitrary Python result object). -/
structure ToolResult where
  success : Bool
  output : Json := .null
  error : Option String := none

/-- Result of a code execution / the outcome record the brain builds
for tool steps (`ExecutionResult` in
src/living_entity/execution/executor.py; the fields the brain never
touches — return_value, files_created, files_read — are omitted). -/
structure ExecutionResult where
  success : Bool
  output : String := ""
  error : String := ""
  userMessages : List String := []
  taskEnded : Bool := false
deriving DecidableEq, Repr

/-- An action record (`BrainAction` dataclass in brain.py; the
timestamp and the never-read task_completed flag are omitted). -/
structure BrainAction where
  type : String
  content : String
  result : Option ExecutionResult := none
  success : Bool := true
  error : Option String := none
deriving DecidableEq, Repr

/-- The prompt built for an LLM request, represented by the template
and the values interpolated into it. -/
inductive PromptSpec where
  | codeP (task : String) (context : String)
  | correctionP (malformed : String) (task : String)
  | continuationP (previousAction : String) (executionResult : String)
deriving DecidableEq, Repr

/-- One `think()` request: prompt, include_history flag, json_mode. -/
structure ThinkCall where
  prompt : PromptSpec
  includeHistory : Bool
  jsonMode : Bool
deriving DecidableEq, Repr

/-- The external collaborators, indexed by call order: the LLM
response (or raised error) for the i-th think(), the result of the
i-th registry tool execution, the result of the i-th legacy code
execution. -/
structure BrainOracle where
  think : Nat → ReqResult
  tool : Nat → ToolResult
  exec : Nat → ExecutionResult

/-- The observable agent state threaded through one processing cycle. -/
structure BrainState where
  thinkIdx : Nat := 0
  toolIdx : Nat := 0
  execIdx : Nat := 0
  thinks : List ThinkCall := []
  recorded : List BrainAction := []
  actionHistory : List BrainAction := []
  outputs : List String := []
  currentTask : Option String := none
  taskContext : String := ""
deriving DecidableEq, Repr

/-- The `_max_history` cap of the brain action history. -/
def maxHistory : Nat := 50

/-- Issue one `think()` request: log the call and advance the counter;
the oracle answer for this request is `orc.think st.thinkIdx`. -/
def doThink (st : BrainState) (p : PromptSpec)
    (includeHistory : Bool) : BrainState :=
  {st with thinkIdx := st.thinkIdx + 1,
           thinks := st.thinks ++ [⟨p, includeHistory, true⟩]}

/-- Embedding of `BrainAgent._record_action` (brain.py lines 477-487):
append to the history, trim to the last `maxHistory` entries, and pass
the action to the registered on_action callback (the `recorded` log). -/
def recordAction (st : BrainState) (a : BrainAction) : BrainState :=
  let h := st.actionHistory ++ [a]
  let h2 := if h.length > maxHistory then h.drop (h.length - maxHistory) else h
  {st with actionHistory := h2, recorded := st.recorded ++ [a]}

/-- The `{{result}}` placeholder replacement of the tool_call branch:
string argument values containing the placeholder are rewritten with
`str()` of the previous tool result output, when a previous result
exists. -/
def replacePlaceholder (results : List ToolResult) :
    List (String × Json) → List (String × Json) :=
  List.map fun kv =>
    match kv.2 with
    | .str s =>
      if containsSub s.toList ("\x7b\x7bresult\x7d\x7d".toList) then
        match results.getLast? with
        | some lastR =>
          (kv.1, .str (replaceSub s "\x7b\x7bresult\x7d\x7d" (renderJson lastR.output)))
        | none => kv
      else kv
    | _ => kv

/-- The tool_call loop of `BrainAgent._execute_action` (brain.py lines
279-316): for each requested invocation, a non-dict item or non-dict
args for a truthy tool name raise (caught by the method into a
result-less failed action); a falsy tool name is skipped; a truthy
non-string name misses the registry lookup and yields a not-found
failure result; otherwise the registry oracle is consulted, and
successful `say_to_user` calls with a `text` argument queue a user
message.  Accumulates messages, results, and the last failure error. -/
def runToolCalls (orc : BrainOracle) :
    List Json → Nat → List String → List ToolResult → Option String →
    Nat × Except String (List String × List ToolResult × Option String)
  | [], tidx, msgs, results, errOpt => (tidx, .ok (msgs, results, errOpt))
  | tc :: rest, tidx, msgs, results, errOpt =>
    match tc with
    | .obj tcm =>
      let toolJ := objGetD tcm "tool" (.str "")
      let argsJ := objGetD tcm "args" (.obj [])
      if jsonTruthy toolJ then
        match argsJ with
        | .obj argMembers =>
          match toolJ with
          | .str _tname =>
            let argMembers2 := replacePlaceholder results argMembers
            let r := orc.tool tidx
            if r.success then
              let msgs2 :=
                if _tname = "say_to_user" then
                  match objGet argMembers2 "text" with
                  | some tv => msgs ++ [renderJson tv]
                  | none => msgs
                else msgs
              runToolCalls orc rest (tidx + 1) msgs2 (results ++ [r]) errOpt
            else
              runToolCalls orc rest (tidx + 1) msgs (results ++ [r]) r.error
          | otherName =>
            let notFound := "Tool not found: " ++ renderJson otherName
            let r : ToolResult :=
              { success := false, output := .null, error := some notFound }
            runToolCalls orc rest tidx msgs (results ++ [r]) (some notFound)
        | _ => (tidx, .error "TypeError: argument unpacking failed")
      else
        runToolCalls orc rest tidx msgs results errOpt
    | _ => (tidx, .error "AttributeError: item has no attribute get")

/-- Local output of one `_execute_action` body: the advanced oracle
counters, the user messages emitted to the output callback in this
step, and the built action. -/
structure ExecOut where
  toolIdx : Nat
  execIdx : Nat
  emitted : List String
  action : BrainAction
deriving DecidableEq, Repr

/-- Embedding of the body of `BrainAgent._execute_action` on a parsed
object (brain.py lines 270-374): dispatch on action_type with default
"response"; the tool_call branch runs the tool loop, emits the queued
messages, and builds an outcome whose task_ended is exactly whether a
user message was produced; the response branch emits the text and ends
the task; the legacy code branch consults the executor oracle; any
other action type fails locally without an outcome record. -/
def executeActionObj (orc : BrainOracle) (toolIdx execIdx : Nat)
    (members : List (String × Json)) : ExecOut :=
  match objGetD members "action_type" (.str "response") with
  | .str "tool_call" =>
    let toolCalls := objGetD members "tool_calls" (.arr [])
    let content :=
      match toolCalls with
      | .arr l => "Tool calls: " ++ toString l.length
      | .str s => "Tool calls: " ++ toString s.length
      | .obj m => "Tool calls: " ++ toString m.length
      | _ => ""
    match toolCalls with
    | .arr items =>
      (match runToolCalls orc items toolIdx [] [] none with
       | (tidx2, .ok (msgs, results, errOpt)) =>
         let succ := results.all (fun r => r.success)
         { toolIdx := tidx2, execIdx := execIdx, emitted := msgs,
           action :=
             { type := "tool_call", content := content,
               result := some
                 { success := succ, taskEnded := !msgs.isEmpty,
                   userMessages := msgs,
                   output := pyStrList (results.map (fun r => r.output)) },
               success := succ, error := errOpt } }
       | (tidx2, .error e) =>
         { toolIdx := tidx2, execIdx := execIdx, emitted := [],
           action := { type := "tool_call", content := content,
                       result := none, success := false, error := some e } })
    | .str "" =>
      { toolIdx := toolIdx, execIdx := execIdx, emitted := [],
        action := { type := "tool_call", content := content,
                    result := some
                      { success := true, taskEnded := false,
                        userMessages := [], output := pyStrList [] },
                    success := true, error := none } }
    | .obj [] =>
      { toolIdx := toolIdx, execIdx := execIdx, emitted := [],
        action := { type := "tool_call", content := content,
                    result := some
                      { success := true, taskEnded := false,
                        userMessages := [], output := pyStrList [] },
                    success := true, error := none } }
    | _ =>
      { toolIdx := toolIdx, execIdx := execIdx, emitted := [],
        action := { type := "tool_call", content := content, result := none,
                    success := false,
                    error := some "TypeError: tool_calls iteration failed" } }
  | .str "response" =>
    let rt := objGetD members "response" (.str "")
    let text := renderJson rt
    let emit := jsonTruthy rt
    { toolIdx := toolIdx, execIdx := execIdx,
      emitted := if emit then [text] else [],
      action :=
        { type := "response", content := text,
          result := some
            { success := true, taskEnded := true,
              userMessages := if emit then [text] else [] },
          success := true, error := none } }
  | .str "code" =>
    let codeJ := objGetD members "code" (.str "")
    let code := renderJson codeJ
    if jsonTruthy codeJ then
      let r := orc.exec execIdx
      if r.success then
        { toolIdx := toolIdx, execIdx := execIdx + 1,
          emitted := r.userMessages,
          action := { type := "code", content := code, result := some r,
                      success := true, error := none } }
      else
        { toolIdx := toolIdx, execIdx := execIdx + 1, emitted := [],
          action := { type := "code", content := code, result := some r,
                      success := false, error := some r.error } }
    else
      { toolIdx := toolIdx, execIdx := execIdx, emitted := [],
        action := { type := "code", content := code, result := none,
                    success := true, error := none } }
  | other =>
    { toolIdx := toolIdx, execIdx := execIdx, emitted := [],
      action := { type := renderJson other, content := "",
                  result := none, success := false,
                  error := some ("Unknown action type: " ++ renderJson other) } }

/-- Embedding of `BrainAgent._execute_action` on an arbitrary parsed
value: the `parsed.get` call before the try block raises on a non-dict
argument and propagates to the caller; everything else is handled
inside the method.  The state absorbs the advanced counters and the
emitted outputs. -/
def executeAction (orc : BrainOracle) (st : BrainState) (parsed : Json) :
    Except String (BrainState × BrainAction) :=
  match parsed with
  | .obj members =>
    let out := executeActionObj orc st.toolIdx st.execIdx members
    .ok ({st with toolIdx := out.toolIdx, execIdx := out.execIdx,
                  outputs := st.outputs ++ out.emitted}, out.action)
  | _ => .error "AttributeError: object has no attribute get"

/-- How one `_process_task` cycle ended, mapped from the code sites:
`completed` are the two Task-completed clears; `abandoned` are the
failure-handler clears; `thinkFailed` is the initial-think exception
clear; `parseGaveUp` are the clears after the correction round-trip
fails; `skippedEmpty` is the empty-guidance clear; `stillActive` means
the cycle returned with the task slot untouched; `raised` means an
exception propagated out of `_process_task` (task still active). -/
inductive TaskEnd where
  | completed
  | abandoned
  | thinkFailed
  | parseGaveUp
  | skippedEmpty
  | stillActive
  | raised
deriving DecidableEq, Repr

/-- Rendering of `Optional[str]` under an f-string, as in
`f"ОШИБКА: {action.error}"`. -/
def renderErr : Option String → String
  | some e => e
  | none => "None"

/-- Parse a response and keep the result only when it is truthy,
modelling the `parsed = self.parse_json_response(...); if not parsed:`
idiom of `_process_task`, `_handle_continuation` and
`_handle_failure`. -/
def parseTruthy (response : String) : Option Json :=
  match parseJsonResponse response with
  | some j => if jsonTruthy j then some j else none
  | none => none

/-- Embedding of `BrainAgent._handle_failure` (brain.py lines
451-475): one think() with the error text fed back (history included),
then — when the parsed response is truthy — one recovery execution;
the task slot is cleared when the recovery action fails or when
anything in the handler raises, and kept otherwise. -/
def handleFailure (orc : BrainOracle) (st : BrainState) (action : BrainAction) :
    BrainState × TaskEnd :=
  let p := PromptSpec.continuationP action.content
    ("ОШИБКА: " ++ renderErr action.error)
  let st1 := doThink st p true
  match orc.think st.thinkIdx with
  | .raised _ => ({st1 with currentTask := none}, .abandoned)
  | .ok response =>
    match parseTruthy response with
    | none => (st1, .stillActive)
    | some j =>
      match executeAction orc st1 j with
      | .error _ => ({st1 with currentTask := none}, .abandoned)
      | .ok (st2, recovery) =>
        let st3 := recordAction st2 recovery
        if recovery.success then (st3, .stillActive)
        else ({st3 with currentTask := none}, .abandoned)

/-- Embedding of `BrainAgent._handle_continuation` (brain.py lines
422-449): extend the task context, re-issue the request with the
previous action and its result as the prompt parameters and without
history, execute the parsed follow-up once, complete on task_ended,
hand a failed follow-up to the failure handler, and otherwise return
with the task still active.  The think() here is not wrapped in a try,
so a raised request propagates out. -/
def handleContinuation (orc : BrainOracle) (st : BrainState)
    (action : BrainAction) : BrainState × TaskEnd :=
  let execResultStr :=
    match action.result with
    | some r => r.output
    | none => "No result"
  let ctxAdd := "\nPrevious action: " ++ action.content ++ "\nResult: "
    ++ (match action.result with | some r => r.output | none => "Failed")
  let st0 := {st with taskContext := st.taskContext ++ ctxAdd}
  let p := PromptSpec.continuationP action.content execResultStr
  let st1 := doThink st0 p false
  match orc.think st.thinkIdx with
  | .raised _ => (st1, .raised)
  | .ok response =>
    match parseTruthy response with
    | none => (st1, .stillActive)
    | some j =>
      match executeAction orc st1 j with
      | .error _ => (st1, .raised)
      | .ok (st2, contAction) =>
        let st3 := recordAction st2 contAction
        match contAction.result with
        | some r =>
          if r.taskEnded then
            ({st3 with currentTask := none, taskContext := ""}, .completed)
          else if contAction.success then (st3, .stillActive)
          else handleFailure orc st3 contAction
        | none =>
          if contAction.success then (st3, .stillActive)
          else handleFailure orc st3 contAction

/-- The tail of `_process_task` after a truthy parsed response: execute
the action, record it, then dispatch on the elif chain — an outcome
with task_ended clears the task as complete, an outcome without
task_ended goes to the continuation handler (whether or not the step
succeeded), a result-less unsuccessful action goes to the failure
handler, and a result-less successful action falls through with the
task still active. -/
def afterParsed (orc : BrainOracle) (st : BrainState) (j : Json) :
    BrainState × TaskEnd :=
  match executeAction orc st j with
  | .error _ => (st, .raised)
  | .ok (st2, action) =>
    let st3 := recordAction st2 action
    match action.result with
    | some r =>
      if r.taskEnded then
        ({st3 with currentTask := none, taskContext := ""}, .completed)
      else handleContinuation orc st3 action
    | none =>
      if action.success then (st3, .stillActive)
      else handleFailure orc st3 action

/-- Embedding of one `BrainAgent._process_task` cycle (brain.py lines
174-268) for an agent with no memory and no context reducer: skip an
empty guidance; build the code prompt from the guidance and the task
context (or the no-previous-context filler); think() with history;
on a raised request clear the task; parse the response, with one
correction round-trip (no history) on a falsy parse, clearing the task
when the correction also fails; then run the executed-action dispatch. -/
def processTask (orc : BrainOracle) (st : BrainState) : BrainState × TaskEnd :=
  match st.currentTask with
  | none => (st, .stillActive)
  | some guidance =>
    if guidance = "" then ({st with currentTask := none}, .skippedEmpty)
    else
      let context :=
        if st.taskContext = "" then "Нет предыдущего контекста"
        else st.taskContext
      let st1 := doThink st (.codeP guidance context) true
      match orc.think st.thinkIdx with
      | .raised _ => ({st1 with currentTask := none}, .thinkFailed)
      | .ok response =>
        match parseTruthy response with
        | some j => afterParsed orc st1 j
        | none =>
          let st2 := doThink st1 (.correctionP response guidance) false
          match orc.think st1.thinkIdx with
          | .raised _ => ({st2 with currentTask := none}, .parseGaveUp)
          | .ok response2 =>
            match parseTruthy response2 with
            | some j2 => afterParsed orc st2 j2
            | none => ({st2 with currentTask := none}, .parseGaveUp)

/-- An LLM response proposing one silent tool call. -/
def toolCallResp : String :=
  "\x7b\"action_type\": \"tool_call\", \"tool_calls\": [\x7b\"tool\": \"ping\", \"args\": \x7b\x7d\x7d]\x7d"

/-- An LLM response proposing a user-facing response action. -/
def respResp : String :=
  "\x7b\"action_type\": \"response\", \"response\": \"hi\"\x7d"

/-- Oracle: every request proposes the silent tool call and every tool
execution succeeds. -/
def contOrc : BrainOracle where
  think := fun _ => .ok toolCallResp
  tool := fun _ => { success := true, output := .str "pong" }
  exec := fun _ => { success := true }

/-- Oracle: every request proposes the tool call and every tool
execution fails. -/
def failOrc : BrainOracle where
  think := fun _ => .ok toolCallResp
  tool := fun _ => { success := false, output := .null, error := some "ping broke" }
  exec := fun _ => { success := true }

/-- Oracle: every request proposes the response action. -/
def respOrc : BrainOracle where
  think := fun _ => .ok respResp
  tool := fun _ => { success := true }
  exec := fun _ => { success := true }

/-- Fresh agent state with one active task. -/
def st0 : BrainState := { currentTask := some "do the thing" }

example : parseJsonResponse toolCallResp =
    some (.obj [("action_type", .str "tool_call"),
                ("tool_calls", .arr [.obj [("tool", .str "ping"),
                                           ("args", .obj [])]])]) := by rfl

example : (processTask contOrc st0).2 = .stillActive := by rfl
example : (processTask contOrc st0).1.thinks =
    [⟨.codeP "do the thing" "Нет предыдущего контекста", true, true⟩,
     ⟨.continuationP "Tool calls: 1" "['pong']", false, true⟩] := by rfl
example : (processTask contOrc st0).1.currentTask = some "do the thing" := by rfl
example : (processTask contOrc st0).1.recorded.length = 2 := by rfl

example : (processTask failOrc st0).2 = .abandoned := by rfl
example : (processTask failOrc st0).1.thinks =
    [⟨.codeP "do the thing" "Нет предыдущего контекста", true, true⟩,
     ⟨.continuationP "Tool calls: 1" "[None]", false, true⟩,
     ⟨.continuationP "Tool calls: 1" "ОШИБКА: ping broke", true, true⟩] := by rfl
example : (processTask failOrc st0).1.recorded.length = 3 := by rfl
example : (processTask failOrc st0).1.currentTask = none := by rfl

example : (processTask respOrc st0).2 = .completed := by rfl
example : (processTask respOrc st0).1.recorded.getLast? =
    some { type := "response", content := "hi",
           result := some { success := true, taskEnded := true,
                            userMessages := ["hi"] },
           success := true, error := none } := by rfl
example : (processTask respOrc st0).1.outputs = ["hi"] := by rfl

/-! ## Helper lemmas about the recording and handler functions. -/

theorem getLast?_drop_eq {α : Type} (l : List α) (n : Nat) (h : n < l.length) :
    (l.drop n).getLast? = l.getLast? := by
  induction l generalizing n with
  | nil => simp at h
  | cons x t ih =>
    cases n with
    | zero => rfl
    | succ m =>
      have hm : m < t.length := by simpa using h
      rw [List.drop_succ_cons, ih m hm]
      match t, hm with
      | y :: t2, _ => rfl

/-- C10: every recorded action is appended to the history and passed to
the on_action callback, and after every `_record_action` call the
history holds at most the configured cap of 50 actions, is a suffix of
the appended history (oldest evicted first, relative order preserved),
and still ends with the action just recorded. -/
theorem C10_record_action (st : BrainState) (a : BrainAction) :
    (recordAction st a).recorded = st.recorded ++ [a]
    ∧ (recordAction st a).actionHistory.length ≤ maxHistory
    ∧ maxHistory = 50
    ∧ (recordAction st a).actionHistory <:+ st.actionHistory ++ [a]
    ∧ (recordAction st a).actionHistory.getLast? = some a := by
  refine ⟨rfl, ?_, rfl, ?_, ?_⟩
  · show (if (st.actionHistory ++ [a]).length > maxHistory then
        (st.actionHistory ++ [a]).drop ((st.actionHistory ++ [a]).length - maxHistory)
      else st.actionHistory ++ [a]).length ≤ maxHistory
    split
    · rename_i hgt
      rw [List.length_drop]
      omega
    · rename_i hle
      omega
  · show (if (st.actionHistory ++ [a]).length > maxHistory then
        (st.actionHistory ++ [a]).drop ((st.actionHistory ++ [a]).length - maxHistory)
      else st.actionHistory ++ [a]) <:+ st.actionHistory ++ [a]
    split
    · exact List.drop_suffix _ _
    · exact List.suffix_refl _
  · show (if (st.actionHistory ++ [a]).length > maxHistory then
        (st.actionHistory ++ [a]).drop ((st.actionHistory ++ [a]).length - maxHistory)
      else st.actionHistory ++ [a]).getLast? = some a
    split
    · rename_i hgt
      rw [getLast?_drop_eq _ _ (by simp [maxHistory] at hgt ⊢; omega)]
      exact List.getLast?_concat _
    · exact List.getLast?_concat _

/-- Characterization of one `_handle_failure` call: it issues exactly
one LLM request — the continuation prompt carrying the failed action
content and the error text, with history — records at most one
recovery action, and either abandons the task (clearing the slot) or
returns with the slot untouched; it never completes the task. -/
theorem executeAction_ok_frame (orc : BrainOracle) (st st2 : BrainState)
    (parsed : Json) (a : BrainAction)
    (h : executeAction orc st parsed = .ok (st2, a)) :
    st2.thinks = st.thinks ∧ st2.recorded = st.recorded
    ∧ st2.currentTask = st.currentTask ∧ st2.taskContext = st.taskContext
    ∧ st2.actionHistory = st.actionHistory ∧ st2.thinkIdx = st.thinkIdx := by
  cases parsed <;> simp only [executeAction] at h
  case obj members =>
    injection h with hpair
    injection hpair with hst ha
    subst hst
    exact ⟨rfl, rfl, rfl, rfl, rfl, rfl⟩
  all_goals exact Except.noConfusion h

theorem handleFailure_spec (orc : BrainOracle) (st : BrainState)
    (action : BrainAction) :
    (handleFailure orc st action).1.thinks
      = st.thinks ++ [⟨.continuationP action.content
          ("ОШИБКА: " ++ renderErr action.error), true, true⟩]
    ∧ (handleFailure orc st action).1.recorded.length ≤ st.recorded.length + 1
    ∧ (((handleFailure orc st action).2 = .abandoned
          ∧ (handleFailure orc st action).1.currentTask = none)
       ∨ ((handleFailure orc st action).2 = .stillActive
          ∧ (handleFailure orc st action).1.currentTask = st.currentTask)) := by
  unfold handleFailure
  split
  · exact ⟨rfl, Nat.le_succ _, Or.inl ⟨rfl, rfl⟩⟩
  · split
    · exact ⟨rfl, Nat.le_succ _, Or.inr ⟨rfl, rfl⟩⟩
    · dsimp only
      split
      · exact ⟨rfl, Nat.le_succ _, Or.inl ⟨rfl, rfl⟩⟩
      · rename_i st2 recovery heqExec
        obtain ⟨hT, hR, hC, _, _, _⟩ :=
          executeAction_ok_frame orc _ st2 _ recovery heqExec
        split
        · refine ⟨?_, ?_, Or.inr ⟨rfl, ?_⟩⟩
          · show st2.thinks = _
            rw [hT]
            rfl
          · show (st2.recorded ++ [recovery]).length ≤ st.recorded.length + 1
            rw [hR]
            simp [doThink]
          · show st2.currentTask = st.currentTask
            rw [hC]
            rfl
        · refine ⟨?_, ?_, Or.inl ⟨rfl, rfl⟩⟩
          · show st2.thinks = _
            rw [hT]
            rfl
          · show (st2.recorded ++ [recovery]).length ≤ st.recorded.length + 1
            rw [hR]
            simp [doThink]

/-- Characterization of one `_handle_continuation` call on an action
that carries an outcome record: the first LLM request it issues is the
re-issue carrying the previous action content and its result output,
without history; at most one further request (the failure handler
round) can follow; and whenever the handler returns still-active the
task slot is untouched. -/
theorem handleContinuation_spec (orc : BrainOracle) (st : BrainState)
    (action : BrainAction) (r : ExecutionResult)
    (h : action.result = some r) :
    ∃ rest : List ThinkCall,
      (handleContinuation orc st action).1.thinks
        = st.thinks ++ ⟨.continuationP action.content r.output, false, true⟩ :: rest
      ∧ rest.length ≤ 1
      ∧ ((handleContinuation orc st action).2 = .stillActive →
          (handleContinuation orc st action).1.currentTask = st.currentTask) := by
  unfold handleContinuation
  simp only [h]
  split
  · exact ⟨[], rfl, by simp, by intro hc; exact TaskEnd.noConfusion hc⟩
  · split
    · exact ⟨[], rfl, by simp, fun _ => rfl⟩
    · split
      · exact ⟨[], rfl, by simp, by intro hc; exact TaskEnd.noConfusion hc⟩
      · rename_i st2 contAction heqExec
        obtain ⟨hT, hR, hC, _, _, _⟩ :=
          executeAction_ok_frame orc _ st2 _ contAction heqExec
        split
        · rename_i r2 heqRes
          split
          · refine ⟨[], ?_, by simp, by intro hc; exact TaskEnd.noConfusion hc⟩
            show st2.thinks = _
            rw [hT]
            rfl
          · split
            · refine ⟨[], ?_, by simp, fun _ => ?_⟩
              · show st2.thinks = _
                rw [hT]
                rfl
              · show st2.currentTask = _
                rw [hC]
                rfl
            · obtain ⟨hfT, hfR, hfD⟩ :=
                handleFailure_spec orc (recordAction st2 contAction) contAction
              refine ⟨[⟨.continuationP contAction.content
                  ("ОШИБКА: " ++ renderErr contAction.error), true, true⟩],
                ?_, by simp, ?_⟩
              · rw [hfT]
                show st2.thinks ++ _ = _
                rw [hT]
                show (st.thinks ++ [_]) ++ [_] = _
                simp
              · intro hstill
                rcases hfD with ⟨hab, _⟩ | ⟨_, hcur⟩
                · rw [hstill] at hab
                  exact absurd hab (by decide)
                · rw [hcur]
                  show st2.currentTask = _
                  rw [hC]
                  rfl
        · split
          · refine ⟨[], ?_, by simp, fun _ => ?_⟩
            · show st2.thinks = _
              rw [hT]
              rfl
            · show st2.currentTask = _
              rw [hC]
              rfl
          · obtain ⟨hfT, hfR, hfD⟩ :=
              handleFailure_spec orc (recordAction st2 contAction) contAction
            refine ⟨[⟨.continuationP contAction.content
                ("ОШИБКА: " ++ renderErr contAction.error), true, true⟩],
              ?_, by simp, ?_⟩
            · rw [hfT]
              show st2.thinks ++ _ = _
              rw [hT]
              show (st.thinks ++ [_]) ++ [_] = _
              simp
            · intro hstill
              rcases hfD with ⟨hab, _⟩ | ⟨_, hcur⟩
              · rw [hstill] at hab
                exact absurd hab (by decide)
              · rw [hcur]
                show st2.currentTask = _
                rw [hC]
                rfl

/-- C5 is refuted on its repetition clause: under an oracle whose every
proposed step is a silent successful tool call, no step ends the task
and no step fails, yet the processing cycle stops after the initial
request plus exactly one continuation request, leaving the task active;
the continuation does not repeat until task_ended or failure. -/
theorem C5_counterexample :
    (processTask contOrc st0).2 = .stillActive
    ∧ (processTask contOrc st0).1.currentTask = some "do the thing"
    ∧ (processTask contOrc st0).1.thinks
        = [⟨.codeP "do the thing" "Нет предыдущего контекста", true, true⟩,
           ⟨.continuationP "Tool calls: 1" "['pong']", false, true⟩]
    ∧ (processTask contOrc st0).1.recorded.all
        (fun a => a.success && (match a.result with
          | some r => !r.taskEnded
          | none => false)) = true
    ∧ (processTask contOrc st0).1.recorded.length = 2 :=
  ⟨rfl, rfl, rfl, rfl, rfl⟩

/-- C5 amended: when an executed step of the active task succeeds with
task_ended=false, the Execution Agent performs at most one continuation
round in that processing cycle — the re-issued request carries the
previous action content and its result output and includeHistory is
false, with at most one further failure-handler request after it — and
when the round leaves the state still-active the task slot is untouched
and the cycle ends (two LLM requests in total under the silent-tool
oracle), to be resumed only by a later cycle. -/
theorem C5_continuation_single_round :
    (∀ (orc : BrainOracle) (st : BrainState) (action : BrainAction)
        (r : ExecutionResult), action.result = some r →
      ∃ rest : List ThinkCall,
        (handleContinuation orc st action).1.thinks
          = st.thinks
              ++ ⟨.continuationP action.content r.output, false, true⟩ :: rest
        ∧ rest.length ≤ 1
        ∧ ((handleContinuation orc st action).2 = .stillActive →
            (handleContinuation orc st action).1.currentTask = st.currentTask))
    ∧ (processTask contOrc st0).2 = .stillActive
    ∧ (processTask contOrc st0).1.currentTask = some "do the thing"
    ∧ (processTask contOrc st0).1.thinks
        = [⟨.codeP "do the thing" "Нет предыдущего контекста", true, true⟩,
           ⟨.continuationP "Tool calls: 1" "['pong']", false, true⟩] :=
  ⟨handleContinuation_spec, rfl, rfl, rfl⟩

/-- The first recorded tool action of the silent-tool run, used to
instantiate the amended C5 at a concrete input. -/
def act1 : BrainAction :=
  { type := "tool_call", content := "Tool calls: 1",
    result := some { success := true, taskEnded := false,
                     userMessages := [], output := "['pong']" },
    success := true, error := none }

/-- Witness for the amended C5 at a concrete oracle, state and action. -/
theorem C5_continuation_single_round_witness :
    ∃ rest : List ThinkCall,
      (handleContinuation contOrc st0 act1).1.thinks
        = st0.thinks
            ++ ⟨.continuationP act1.content "['pong']", false, true⟩ :: rest
      ∧ rest.length ≤ 1
      ∧ ((handleContinuation contOrc st0 act1).2 = .stillActive →
          (handleContinuation contOrc st0 act1).1.currentTask
            = st0.currentTask) :=
  C5_continuation_single_round.1 contOrc st0 act1
    { success := true, taskEnded := false, userMessages := [],
      output := "['pong']" } rfl

/-- C6 is refuted: under an oracle whose every proposed step is a
failing tool call, the first failed step carries an outcome record and
is therefore routed to the continuation handler — whose prompt carries
the result output, not the error text — and only the second failed
step reaches the failure handler, so the task undergoes two automated
follow-up rounds (three LLM requests, three recorded actions) before
abandonment, not exactly one. -/
theorem C6_counterexample :
    (processTask failOrc st0).2 = .abandoned
    ∧ (processTask failOrc st0).1.currentTask = none
    ∧ (processTask failOrc st0).1.thinks
        = [⟨.codeP "do the thing" "Нет предыдущего контекста", true, true⟩,
           ⟨.continuationP "Tool calls: 1" "[None]", false, true⟩,
           ⟨.continuationP "Tool calls: 1" "ОШИБКА: ping broke", true, true⟩]
    ∧ (processTask failOrc st0).1.recorded.length = 3
    ∧ (processTask failOrc st0).1.recorded.all (fun a => !a.success) = true :=
  ⟨rfl, rfl, rfl, rfl, rfl⟩

/-- C6 amended: the failure handler itself performs exactly one
recovery round — one LLM request feeding back the error text with
history, at most one recorded recovery action — and either abandons the
task by clearing the active-task slot or leaves the slot untouched;
but a failing step that carries an outcome record is first routed
through the continuation handler, so a task whose steps keep failing
undergoes two automated follow-up rounds (three requests in total)
before abandonment. -/
theorem C6_failure_single_recovery :
    (∀ (orc : BrainOracle) (st : BrainState) (action : BrainAction),
      (handleFailure orc st action).1.thinks
        = st.thinks ++ [⟨.continuationP action.content
            ("ОШИБКА: " ++ renderErr action.error), true, true⟩]
      ∧ (handleFailure orc st action).1.recorded.length
          ≤ st.recorded.length + 1
      ∧ (((handleFailure orc st action).2 = .abandoned
            ∧ (handleFailure orc st action).1.currentTask = none)
         ∨ ((handleFailure orc st action).2 = .stillActive
            ∧ (handleFailure orc st action).1.currentTask = st.currentTask)))
    ∧ (processTask failOrc st0).2 = .abandoned
    ∧ (processTask failOrc st0).1.currentTask = none
    ∧ (processTask failOrc st0).1.thinks
        = [⟨.codeP "do the thing" "Нет предыдущего контекста", true, true⟩,
           ⟨.continuationP "Tool calls: 1" "[None]", false, true⟩,
           ⟨.continuationP "Tool calls: 1" "ОШИБКА: ping broke", true, true⟩]
    ∧ (processTask failOrc st0).1.recorded.length = 3 :=
  ⟨handleFailure_spec, rfl, rfl, rfl, rfl⟩

theorem handleFailure_ne_completed (orc : BrainOracle) (st : BrainState)
    (action : BrainAction) : (handleFailure orc st action).2 ≠ .completed := by
  intro h
  rcases (handleFailure_spec orc st action).2.2 with ⟨ha, _⟩ | ⟨hs, _⟩
  · rw [h] at ha
    exact TaskEnd.noConfusion ha
  · rw [h] at hs
    exact TaskEnd.noConfusion hs

theorem handleContinuation_completed (orc : BrainOracle) (st : BrainState)
    (action : BrainAction) :
    (handleContinuation orc st action).2 = .completed →
    ∃ (a : BrainAction) (r : ExecutionResult),
      (handleContinuation orc st action).1.recorded.getLast? = some a
      ∧ a.result = some r ∧ r.taskEnded = true := by
  unfold handleContinuation
  cases hres : action.result <;> simp only [hres] <;>
  · split
    · intro h
      exact TaskEnd.noConfusion h
    · split
      · intro h
        exact TaskEnd.noConfusion h
      · split
        · intro h
          exact TaskEnd.noConfusion h
        · rename_i st2 contAction heqExec
          split
          · rename_i r2 heqRes
            split
            · rename_i hEnded
              intro _
              refine ⟨contAction, r2, ?_, heqRes, hEnded⟩
              show (st2.recorded ++ [contAction]).getLast? = some contAction
              exact List.getLast?_concat _
            · split
              · intro h
                exact TaskEnd.noConfusion h
              · intro h
                exact absurd h (handleFailure_ne_completed _ _ _)
          · split
            · intro h
              exact TaskEnd.noConfusion h
            · intro h
              exact absurd h (handleFailure_ne_completed _ _ _)

theorem afterParsed_completed (orc : BrainOracle) (st : BrainState) (j : Json) :
    (afterParsed orc st j).2 = .completed →
    ∃ (a : BrainAction) (r : ExecutionResult),
      (afterParsed orc st j).1.recorded.getLast? = some a
      ∧ a.result = some r ∧ r.taskEnded = true := by
  unfold afterParsed
  split
  · intro h
    exact TaskEnd.noConfusion h
  · rename_i st2 action heqExec
    split
    · rename_i r heqRes
      split
      · rename_i hEnded
        intro _
        refine ⟨action, r, ?_, heqRes, hEnded⟩
        show (st2.recorded ++ [action]).getLast? = some action
        exact List.getLast?_concat _
      · intro h
        exact handleContinuation_completed _ _ _ h
    · split
      · intro h
        exact TaskEnd.noConfusion h
      · intro h
        exact absurd h (handleFailure_ne_completed _ _ _)

theorem processTask_completed (orc : BrainOracle) (st : BrainState) :
    (processTask orc st).2 = .completed →
    ∃ (a : BrainAction) (r : ExecutionResult),
      (processTask orc st).1.recorded.getLast? = some a
      ∧ a.result = some r ∧ r.taskEnded = true := by
  unfold processTask
  split
  · intro h
    exact TaskEnd.noConfusion h
  · split
    · intro h
      exact TaskEnd.noConfusion h
    · split <;>
      · split
        · intro h
          exact TaskEnd.noConfusion h
        · split
          · intro h
            exact afterParsed_completed _ _ _ h
          · dsimp only
            split
            · intro h
              exact TaskEnd.noConfusion h
            · split
              · intro h
                exact afterParsed_completed _ _ _ h
              · intro h
                exact TaskEnd.noConfusion h

/-- C7: the active task is never cleared as complete unless the last
recorded action's outcome had task_ended=true — over every oracle and
state, a processing cycle ending in `completed` leaves a last recorded
action whose outcome has task_ended — and for every tool_call step that
produces an outcome record, task_ended is true exactly when at least
one say_to_user message was produced in that step; hence tool-only
steps with no user-facing message never complete the task. -/
theorem C7_completion_invariant :
    (∀ (orc : BrainOracle) (st : BrainState),
      (processTask orc st).2 = .completed →
      ∃ (a : BrainAction) (r : ExecutionResult),
        (processTask orc st).1.recorded.getLast? = some a
        ∧ a.result = some r ∧ r.taskEnded = true)
    ∧ (∀ (orc : BrainOracle) (tidx eidx : Nat)
        (members : List (String × Json)) (r : ExecutionResult),
        objGetD members "action_type" (.str "response") = .str "tool_call" →
        (executeActionObj orc tidx eidx members).action.result = some r →
        (r.taskEnded = true ↔ r.userMessages ≠ [])) := by
  constructor
  · exact processTask_completed
  · intro orc tidx eidx members r h1 h2
    simp only [executeActionObj, h1] at h2
    split at h2
    · split at h2
      · rename_i msgs results errOpt heqRun
        injection h2 with h3
        subst h3
        show (!msgs.isEmpty) = true ↔ msgs ≠ []
        cases msgs <;> simp
      · exact Option.noConfusion h2
    · injection h2 with h3
      subst h3
      simp
    · injection h2 with h3
      subst h3
      simp
    · exact Option.noConfusion h2

/-- Witness for C7: the completion part at the response-proposing
oracle, and the tool_call part at a concrete silent tool step. -/
theorem C7_completion_invariant_witness :
    (∃ (a : BrainAction) (r : ExecutionResult),
        (processTask respOrc st0).1.recorded.getLast? = some a
        ∧ a.result = some r ∧ r.taskEnded = true)
    ∧ (((false : Bool) = true) ↔
        ([] : List String) ≠ []) :=
  ⟨C7_completion_invariant.1 respOrc st0 rfl,
   C7_completion_invariant.2 contOrc 0 0
     [("action_type", .str "tool_call"),
      ("tool_calls", .arr [.obj [("tool", .str "ping"), ("args", .obj [])]])]
     { success := true, taskEnded := false, userMessages := [],
       output := "['pong']" } rfl rfl⟩

end PCController
